import Mathlib

/-!
Shallow embedding of the wallet-link / challenge-cookie subsystem of the
CryptoLens repository, together with its favorites-replace SQL procedure.

Sources embedded:
  * `src/pages/api/wallet.js` — challenge codec, SIWE parsing, link handler
  * `src/pages/api/auth/[...nextauth].js` — the duplicated challenge decoder
  * `src/unnamed/part_000` (Supabase SQL) — `replace_user_favorites`,
    `normalize_wallet_lowercase` trigger, lowercase CHECK constraint

External primitives (HMAC-SHA256, base64url, `JSON.stringify`/`JSON.parse`,
`Date` parsing, `decodeURIComponent`, viem's `recoverMessageAddress` and
`isAddress`) are abstracted as function parameters; everything else is
translated directly.  JavaScript's Unicode-aware `toLowerCase` is modelled by
the ASCII `Char.toLower` map, and `\s` by its ASCII members.
-/

set_option maxRecDepth 4000

namespace CryptoLens

/-! ## JavaScript string primitives -/

/-- JS `\s` (ASCII members). -/
def jsWhitespaceChar (c : Char) : Bool :=
  c = ' ' || c = '\t' || c = '\n' || c = '\r' || c = '\x0b' || c = '\x0c'

/-- JS `String.prototype.trim` (ASCII whitespace). -/
def jsTrim (s : String) : String :=
  String.mk (((s.data.dropWhile jsWhitespaceChar).reverse.dropWhile jsWhitespaceChar).reverse)

/-- Accumulator loop for `jsSplit`. -/
def jsSplitChars (sep : Char) : List Char → List Char → List String
  | [], acc => [String.mk acc.reverse]
  | c :: rest, acc =>
    if c = sep then String.mk acc.reverse :: jsSplitChars sep rest []
    else jsSplitChars sep rest (c :: acc)

/-- JS `String.prototype.split` with a single-character separator. -/
def jsSplit (s : String) (sep : Char) : List String :=
  jsSplitChars sep s.data []

/-- JS array indexing `parts[i]` over split results (`undefined` coerces to a
failed comparison; the handlers only index within bounds, so the default
matters only for totality). -/
def partAt (l : List String) (i : Nat) : String :=
  l.getD i ""

/-- JS `String.prototype.toLowerCase`, restricted to ASCII case mapping. -/
def lowerStr (s : String) : String :=
  String.mk (s.data.map Char.toLower)

/-- JS string truthiness for optional string-valued fields: `undefined`/`null`
and the empty string are falsy. -/
def strVal : Option String → Option String
  | none => none
  | some s => if s = "" then none else some s

/-- Case-insensitive substring test, modelling `/pat/i.test s` for a literal
pattern. -/
def containsInsensitive (s pat : String) : Bool :=
  (List.range (s.data.length + 1)).any
    (fun i => (lowerStr pat).data.isPrefixOf ((lowerStr s).data.drop i))

/-- The `^0x[a-fA-F0-9]{40}$` test from `wallet.js`. -/
def isValidEthereumAddress (s : String) : Bool :=
  s.data.length = 42 && s.data.take 2 = ['0', 'x'] &&
    (s.data.drop 2).all (fun c => c.isDigit || ('a' ≤ c && c ≤ 'f') || ('A' ≤ c && c ≤ 'F'))

/-! ## Challenge payload and codec (`wallet.js` lines 85–106) -/

/-- The challenge record serialized into the signed cookie.  Field order
follows the object literals in `handleChallenge`. -/
structure ChallengePayload where
  version : Nat
  method : String
  nonce : String
  issuedAt : String
  expiresAt : Option String
  domain : String
  message : Option String
  userId : Option String
deriving Repr, DecidableEq

/-- `setChallengeCookie` cookie value: `v1 . base64url(json) . hmac(json)`.
`ser` stands for `JSON.stringify`, `b64e` for base64url encoding and `hmac`
for the base64url-encoded HMAC-SHA256 under the server secret. -/
def encodeChallengeValue (hmac b64e : String → String) (ser : ChallengePayload → String)
    (c : ChallengePayload) : String :=
  "v1." ++ b64e (ser c) ++ "." ++ hmac (ser c)

/-- The decode cascade of `readChallengeCookie` in `wallet.js`, applied to the
raw cookie value (`none` when the cookie is absent).  `b64d` is
`base64urlDecodeToString`, `deser` is `JSON.parse` into the payload shape and
`parseTime` is `new Date(t).getTime()` (`none` for `NaN`). -/
def decodeChallengeValue (hmac b64d : String → String)
    (deser : String → Option ChallengePayload) (parseTime : String → Option Int)
    (now : Int) : Option String → Except String ChallengePayload
  | none => .error "NO_CHALLENGE"
  | some r =>
    if r = "" then .error "NO_CHALLENGE"
    else
      let parts := jsSplit r '.'
      if parts.length ≠ 3 ∨ partAt parts 0 ≠ "v1" then .error "INVALID_COOKIE"
      else
        let json := b64d (partAt parts 1)
        let sig := partAt parts 2
        if sig ≠ hmac json then .error "TAMPERED"
        else
          match deser json with
          | none => .error "INVALID_JSON"
          | some payload =>
            match payload.expiresAt with
            | none => .ok payload
            | some t =>
              if t = "" then .ok payload
              else
                match parseTime t with
                | none => .ok payload
                | some v => if now > v then .error "EXPIRED" else .ok payload

/-! ## Cookie-header parsing (`getCookie` in `wallet.js`, and the inline loop
in `[...nextauth].js`) -/

/-- Parse one `;`-separated cookie entry into a (name, value) pair, after
trimming.  `uriDecode` models `decodeURIComponent`. -/
def cookiePair (uriDecode : String → String) (c : String) : Option (String × String) :=
  let ct := jsTrim c
  if ct = "" then none
  else
    match ct.data.findIdx? (· = '=') with
    | none => none
    | some i => some (String.mk (ct.data.take i), uriDecode (String.mk (ct.data.drop (i + 1))))

/-- All (name, value) pairs of a `Cookie:` header. -/
def cookiePairs (uriDecode : String → String) (header : String) : List (String × String) :=
  (jsSplit header ';').filterMap (cookiePair uriDecode)

/-- First value bound to `name` (the `return` inside the loop of
`getCookie` in `wallet.js`). -/
def firstVal (name : String) : List (String × String) → Option String
  | [] => none
  | p :: rest => if p.1 = name then some p.2 else firstVal name rest

/-- Last value bound to `name` (the repeated `raw = ...` assignment in the
loop of `readChallengeCookie` in `[...nextauth].js`). -/
def lastVal (name : String) : List (String × String) → Option String
  | [] => none
  | p :: rest =>
    match lastVal name rest with
    | some v => some v
    | none => if p.1 = name then some p.2 else none

/-- `readChallengeCookie` of `wallet.js`: first matching cookie, then the
decode cascade. -/
def walletReadChallengeCookie (hmac b64d : String → String)
    (deser : String → Option ChallengePayload) (parseTime : String → Option Int)
    (uriDecode : String → String) (header : String) (now : Int) :
    Except String ChallengePayload :=
  decodeChallengeValue hmac b64d deser parseTime now
    (firstVal "wallet_challenge" (cookiePairs uriDecode header))

/-- `readChallengeCookie` of `[...nextauth].js`: last matching cookie, then a
textually identical decode cascade (its `hmacSign` uses `digest('base64url')`,
which agrees with `wallet.js`'s `digest('base64')` + `toBase64Url`, so the
same `hmac` parameter models both). -/
def nextauthReadChallengeCookie (hmac b64d : String → String)
    (deser : String → Option ChallengePayload) (parseTime : String → Option Int)
    (uriDecode : String → String) (header : String) (now : Int) :
    Except String ChallengePayload :=
  match lastVal "wallet_challenge" (cookiePairs uriDecode header) with
  | none => .error "NO_CHALLENGE"
  | some r =>
    if r = "" then .error "NO_CHALLENGE"
    else
      let parts := jsSplit r '.'
      if parts.length ≠ 3 ∨ partAt parts 0 ≠ "v1" then .error "INVALID_COOKIE"
      else
        let json := b64d (partAt parts 1)
        let sig := partAt parts 2
        if sig ≠ hmac json then .error "TAMPERED"
        else
          match deser json with
          | none => .error "INVALID_JSON"
          | some payload =>
            match payload.expiresAt with
            | none => .ok payload
            | some t =>
              if t = "" then .ok payload
              else
                match parseTime t with
                | none => .ok payload
                | some v => if now > v then .error "EXPIRED" else .ok payload

/-! ## SIWE message parsing (`parseSiweMessage`, `wallet.js` lines 124–145) -/

/-- Result record of `parseSiweMessage`. -/
structure SiweParsed where
  domain : Option String
  address : String
  nonce : Option String
  issuedAt : Option String
  expirationTime : Option String
  uri : Option String
  version : Option String
  chainId : Option String
deriving Repr, DecidableEq

/-- The regex `/^([^\n]+) wants you to sign in with your Ethereum account:/`
applied to the first line: the greedy capture is the longest nonempty prefix
followed by the literal. -/
def siweDomainOfLine (line : String) : Option String :=
  let cs := line.data
  let lit := " wants you to sign in with your Ethereum account:".data
  match ((List.range (cs.length + 1)).filter
      (fun i => decide (1 ≤ i) && lit.isPrefixOf (cs.drop i))).max? with
  | some i => some (String.mk (cs.take i))
  | none => none

/-- Attempt of the regex tail `\s*([^\n]+)` at the text following a field
label; returns the raw capture on success.  When everything after the label is
whitespace, backtracking captures the run starting at the last non-newline
whitespace character (which trims to the empty string downstream). -/
def siweTailCapture (rest : List Char) : Option (List Char) :=
  let b := rest.dropWhile jsWhitespaceChar
  if b.isEmpty then
    match (rest.filter (fun c => decide (c ≠ '\n'))).getLast? with
    | none => none
    | some c => some [c]
  else some (b.takeWhile (fun c => decide (c ≠ '\n')))

/-- Scan for the first position matching `(?:^|\n)<label>\s*([^\n]+)`; the
flag records whether the current position starts the string or follows a
newline. -/
def siweFieldScan (label : List Char) : Bool → List Char → Option (List Char)
  | _, [] => none
  | atStart, c :: rest =>
    if atStart && label.isPrefixOf (c :: rest) then
      match siweTailCapture ((c :: rest).drop label.length) with
      | some cap => some cap
      | none => siweFieldScan label (c = '\n') rest
    else siweFieldScan label (c = '\n') rest

/-- `msg.match(/(?:^|\n)Label:\s*([^\n]+)/)?.[1]?.trim() || null`. -/
def siweField (msg : String) (label : String) : Option String :=
  match siweFieldScan label.data true msg.data with
  | none => none
  | some cap =>
    let v := jsTrim (String.mk cap)
    if v = "" then none else some v

/-- `parseSiweMessage` from `wallet.js` (the copy in `[...nextauth].js` is
identical). -/
def parseSiweMessage (msg : String) : SiweParsed :=
  let lines := jsSplit msg '\n'
  { domain := siweDomainOfLine (lines.headD "")
    address := jsTrim (lines.getD 1 "")
    nonce := siweField msg "Nonce:"
    issuedAt := siweField msg "Issued At:"
    expirationTime := siweField msg "Expiration Time:"
    uri := siweField msg "URI:"
    version := siweField msg "Version:"
    chainId := siweField msg "Chain ID:" }

/-- `buildPersonalSignMessage` from `wallet.js` lines 111–123. -/
def buildPersonalSignMessage (domain : String) (userId : Option String)
    (nonce issuedAt expiresAt intent : String) : String :=
  let purpose :=
    if intent = "login" then "Sign in to Web3 Dashboard" else "Link your wallet to Web3 Dashboard"
  let userLine :=
    match strVal userId with
    | some u => "User: " ++ u ++ "\n"
    | none => ""
  purpose ++ "\n" ++ "\n" ++ userLine ++
    "Domain: " ++ domain ++ "\n" ++
    "Nonce: " ++ nonce ++ "\n" ++
    "Issued At: " ++ issuedAt ++ "\n" ++
    "Expires At: " ++ expiresAt ++ "\n"

/-! ## The SIWE verification gates (`wallet.js` lines 257–287) -/

/-- An HTTP error/status pair produced by `sendError` / success responses. -/
structure ApiResp where
  status : Nat
  code : String
deriving Repr, DecidableEq

/-- The five SIWE checks of the link handler's `siwe` branch, in source
order, applied after `signature` and `siweMessage` are known to be present.
`recover` models viem's `recoverMessageAddress` (`none` = throw), `parseTime`
models `new Date(t).getTime()` (`none` = `NaN`), `now` is `Date.now()`.
Returns the recovered address on success. -/
def siweGates (recover : String → String → Option String) (payload : ChallengePayload)
    (siweMessage signature : String) (now : Int) (parseTime : String → Option Int) :
    Except ApiResp String :=
  if (parseSiweMessage siweMessage).nonce = none ∨
      (parseSiweMessage siweMessage).nonce ≠ some payload.nonce then
    .error ⟨400, "NONCE_MISMATCH"⟩
  else if (parseSiweMessage siweMessage).domain = none ∨
      (parseSiweMessage siweMessage).domain ≠ some payload.domain then
    .error ⟨400, "DOMAIN_MISMATCH"⟩
  else
    match recover siweMessage signature with
    | none => .error ⟨400, "SIGNATURE_INVALID"⟩
    | some recovered =>
      if (parseSiweMessage siweMessage).address = "" ∨
          lowerStr recovered ≠ lowerStr (parseSiweMessage siweMessage).address then
        .error ⟨400, "ADDRESS_MISMATCH"⟩
      else
        match (parseSiweMessage siweMessage).expirationTime with
        | none => .ok recovered
        | some t =>
          match parseTime t with
          | none => .ok recovered
          | some v => if now > v then .error ⟨400, "CHALLENGE_EXPIRED"⟩ else .ok recovered

/-- Lines 282–287 of `wallet.js`: validate the recovered string as an address
(`isAddr` models viem's `isAddress`) and normalize it to lowercase. -/
def recoveredToWallet (isAddr : String → Bool) (recovered : String) : Except ApiResp String :=
  if recovered = "" ∨ ¬ isAddr recovered then .error ⟨400, "SIGNATURE_INVALID"⟩
  else if ¬ isValidEthereumAddress (lowerStr recovered) then .error ⟨400, "INVALID_WALLET"⟩
  else .ok (lowerStr recovered)

/-- The `siwe` branch of the link case from the presence checks to the
normalized wallet address handed to the store phase. -/
def siweLinkPipeline (recover : String → String → Option String) (isAddr : String → Bool)
    (payload : ChallengePayload) (siweMessage signature : String) (now : Int)
    (parseTime : String → Option Int) : Except ApiResp String :=
  match siweGates recover payload siweMessage signature now parseTime with
  | .error e => .error e
  | .ok recovered => recoveredToWallet isAddr recovered

/-- The gate cascade exactly as the specification sentence phrases it (used to
check the claim against `siweGates`). -/
def siweGatesSpec (recover : String → String → Option String) (payload : ChallengePayload)
    (siweMessage signature : String) (now : Int) (parseTime : String → Option Int) :
    Except ApiResp String :=
  if (parseSiweMessage siweMessage).nonce = none ∨
      (parseSiweMessage siweMessage).nonce ≠ some payload.nonce then
    .error ⟨400, "NONCE_MISMATCH"⟩
  else if (parseSiweMessage siweMessage).domain = none ∨
      (parseSiweMessage siweMessage).domain ≠ some payload.domain then
    .error ⟨400, "DOMAIN_MISMATCH"⟩
  else
    match recover siweMessage signature with
    | none => .error ⟨400, "SIGNATURE_INVALID"⟩
    | some recovered =>
      if lowerStr recovered ≠ lowerStr (parseSiweMessage siweMessage).address then
        .error ⟨400, "ADDRESS_MISMATCH"⟩
      else
        match (parseSiweMessage siweMessage).expirationTime with
        | none => .ok recovered
        | some t =>
          match parseTime t with
          | none => .ok recovered
          | some v => if v < now then .error ⟨400, "CHALLENGE_EXPIRED"⟩ else .ok recovered

/-! ## Profile store (`profiles` table plus the `normalize_wallet_lowercase`
trigger and lowercase CHECK constraint from `src/unnamed/part_000`) -/

/-- One `profiles` row, restricted to the columns this subsystem touches. -/
structure Profile where
  user_id : String
  wallet_address : Option String
  wallet_linked_at : Option String
deriving Repr, DecidableEq

/-- A PostgREST error surfaced by a write (`error.code` / `error.message`). -/
structure DbErr where
  code : Option String
  message : String
deriving Repr, DecidableEq

/-- `error.code === '23505' || /unique/i.test(error.message || '')`. -/
def isUniqueViolation (e : DbErr) : Bool :=
  e.code == some "23505" || containsInsensitive e.message "unique"

/-- The `normalize_wallet_lowercase` BEFORE INSERT/UPDATE trigger: lowercase a
non-null address, turning an empty result into NULL. -/
def normalize_wallet_lowercase (w : Option String) : Option String :=
  match w with
  | none => none
  | some s => if lowerStr s = "" then none else some (lowerStr s)

/-- The `profiles_wallet_address_lowercase_chk` CHECK constraint. -/
def walletLowercaseCheck (w : Option String) : Bool :=
  match w with
  | none => true
  | some s => s == lowerStr s

/-- `.from('profiles').select(...).eq('wallet_address', a).maybeSingle()`. -/
def dbFindByWallet (db : List Profile) (addr : String) : Option Profile :=
  db.find? (fun p => p.wallet_address == some addr)

/-- `.from('profiles').select(...).eq('user_id', uid).maybeSingle()`. -/
def dbFindByUser (db : List Profile) (uid : String) : Option Profile :=
  db.find? (fun p => p.user_id == uid)

/-- `.from('profiles').update({wallet_address, wallet_linked_at}).eq('user_id', uid)`,
with the store-side trigger applied to the written address. -/
def dbUpdateWallet (db : List Profile) (uid : String) (w : Option String)
    (ts : Option String) : List Profile :=
  db.map (fun p =>
    if p.user_id = uid then
      { p with wallet_address := normalize_wallet_lowercase w, wallet_linked_at := ts }
    else p)

/-- Outcome of a store-phase operation: HTTP status, stable code (`"OK"` on
success), the reported address and timestamp, and the resulting table. -/
structure LinkOutcome where
  status : Nat
  code : String
  walletAddress : Option String
  linkedAt : Option String
  db : List Profile
deriving Repr, DecidableEq

/-- The store phase of `handleLink` after the wallet-conflict gate: user
existence check, then the update.  `writeErr` models a store error raised by
the update (in particular the unique-constraint race); `nowIso` is
`new Date().toISOString()`. -/
def handleLinkStore (db : List Profile) (userId walletAddress nowIso : String)
    (writeErr : Option DbErr) : LinkOutcome :=
  match dbFindByUser db userId with
  | none => ⟨404, "PROFILE_NOT_FOUND", none, none, db⟩
  | some _ =>
    match writeErr with
    | some e =>
      if isUniqueViolation e then ⟨409, "WALLET_TAKEN", none, none, db⟩
      else ⟨500, "LINK_FAILED", none, none, db⟩
    | none =>
      let db2 := dbUpdateWallet db userId (some walletAddress) (some nowIso)
      match dbFindByUser db2 userId with
      | none => ⟨404, "PROFILE_NOT_FOUND", none, none, db2⟩
      | some p => ⟨200, "OK", p.wallet_address, p.wallet_linked_at, db2⟩

/-- `handleLink` from `wallet.js` lines 344–406. -/
def handleLink (db : List Profile) (userId walletAddress nowIso : String)
    (writeErr : Option DbErr) : LinkOutcome :=
  match dbFindByWallet db walletAddress with
  | some p =>
    if p.user_id ≠ userId then ⟨409, "WALLET_TAKEN", none, none, db⟩
    else handleLinkStore db userId walletAddress nowIso writeErr
  | none => handleLinkStore db userId walletAddress nowIso writeErr

/-- `handleCheck` response shape. -/
structure CheckResult where
  isLinked : Bool
  walletAddress : Option String
  linkedAt : Option String
deriving Repr, DecidableEq

/-- `handleCheck` from `wallet.js` lines 312–341 (`!!data.wallet_address` and
`|| null` conversions follow JS truthiness). -/
def handleCheck (db : List Profile) (userId : String) : CheckResult :=
  match dbFindByUser db userId with
  | none => ⟨false, none, none⟩
  | some p => ⟨(strVal p.wallet_address).isSome, strVal p.wallet_address,
      strVal p.wallet_linked_at⟩

/-- `handleUnlink` from `wallet.js` lines 409–434. -/
def handleUnlink (db : List Profile) (userId : String) : LinkOutcome :=
  match dbFindByUser (dbUpdateWallet db userId none none) userId with
  | none => ⟨404, "PROFILE_NOT_FOUND", none, none, dbUpdateWallet db userId none none⟩
  | some _ => ⟨200, "OK", none, none, dbUpdateWallet db userId none none⟩

/-! ## The full `case 'link'` handler (`wallet.js` lines 212–297) -/

/-- Method-specific recovery: the `personal_sign` and `siwe` branches up to a
recovered address, or the rejecting gate. -/
def methodRecover (recover : String → String → Option String) (payload : ChallengePayload)
    (method : String) (signature siweMessage : Option String) (now : Int)
    (parseTime : String → Option Int) : Except ApiResp String :=
  if method = "personal_sign" then
    match strVal signature with
    | none => .error ⟨400, "MISSING_SIGNATURE"⟩
    | some sg =>
      match strVal payload.message with
      | none => .error ⟨400, "CHALLENGE_INVALID"⟩
      | some m =>
        match recover m sg with
        | none => .error ⟨400, "SIGNATURE_INVALID"⟩
        | some recovered => .ok recovered
  else if method = "siwe" then
    match strVal signature, strVal siweMessage with
    | some sg, some m => siweGates recover payload m sg now parseTime
    | _, _ => .error ⟨400, "MISSING_SIGNATURE"⟩
  else .error ⟨400, "INVALID_METHOD"⟩

/-- Result of the link case: the response the client receives, whether an
expiring `Set-Cookie` header for the challenge cookie was actually emitted
(`cleared`), whether a post-response `clearChallengeCookie` call raised
`ERR_HTTP_HEADERS_SENT` (`clearThrew`), and the resulting profile table.

The two `clearChallengeCookie` call sites of the link case run only after
`handleLink` has already sent the response (every path of `handleLink` ends
in `res.status(...).json(...)` or `sendError`, which is
`res.status(...).json(...)` as well), so Node's `res.setHeader` throws
`ERR_HTTP_HEADERS_SENT` and the expiring header is never emitted; the gate
rejections return before the call sites.  `cleared` is therefore `false` on
every path, and `clearThrew` records reaching a call site. -/
structure LinkCaseResult where
  resp : ApiResp
  cleared : Bool
  clearThrew : Bool
  db : List Profile
deriving Repr, DecidableEq

/-- `getDomainFromReq`: `host.split(':')[0]`. -/
def getDomainFromReq (host : String) : String :=
  (jsSplit host ':').headD ""

/-- The `case 'link'` block of the wallet handler.  `tokenWallet` is
`token.walletAddress` from the session, `chall` the result of
`readChallengeCookie`, `host` the request `Host:` header. -/
def linkCase (recover : String → String → Option String) (isAddr : String → Bool)
    (userId : String) (tokenWallet : Option String)
    (chall : Except String ChallengePayload) (method : String)
    (signature siweMessage : Option String) (host : String) (now : Int)
    (parseTime : String → Option Int) (db : List Profile) (nowIso : String)
    (writeErr : Option DbErr) : LinkCaseResult :=
  if method = "session" then
    if lowerStr (tokenWallet.getD "") = "" then ⟨⟨400, "MISSING_WALLET"⟩, false, false, db⟩
    else if ¬ isValidEthereumAddress (lowerStr (tokenWallet.getD "")) then
      ⟨⟨400, "INVALID_WALLET"⟩, false, false, db⟩
    else
      ⟨⟨(handleLink db userId (lowerStr (tokenWallet.getD "")) nowIso writeErr).status,
        (handleLink db userId (lowerStr (tokenWallet.getD "")) nowIso writeErr).code⟩,
        false, true,
        (handleLink db userId (lowerStr (tokenWallet.getD "")) nowIso writeErr).db⟩
  else
    match chall with
    | .error _ => ⟨⟨400, "CHALLENGE_INVALID"⟩, false, false, db⟩
    | .ok payload =>
      if payload.userId ≠ some userId then ⟨⟨400, "CHALLENGE_MISMATCH"⟩, false, false, db⟩
      else if payload.method ≠ method then
        ⟨⟨400, "CHALLENGE_METHOD_MISMATCH"⟩, false, false, db⟩
      else if payload.domain ≠ getDomainFromReq host then
        ⟨⟨400, "DOMAIN_MISMATCH"⟩, false, false, db⟩
      else
        match methodRecover recover payload method signature siweMessage now parseTime with
        | .error e => ⟨e, false, false, db⟩
        | .ok recovered =>
          match recoveredToWallet isAddr recovered with
          | .error e => ⟨e, false, false, db⟩
          | .ok walletAddress =>
            ⟨⟨(handleLink db userId walletAddress nowIso writeErr).status,
              (handleLink db userId walletAddress nowIso writeErr).code⟩,
              false, true,
              (handleLink db userId walletAddress nowIso writeErr).db⟩

/-! ## Challenge issuance (`handleChallenge`, `wallet.js` lines 457–495) -/

/-- The SIWE assembly hints returned to the client. -/
structure SiweHints where
  statement : String
  uri : String
  version : String
deriving Repr, DecidableEq

/-- Outcome of `handleChallenge`: status, error code if any, the payload
written into the signed cookie, the response `message` field and the SIWE
hints. -/
structure ChallengeOutcome where
  status : Nat
  errCode : Option String
  payload : Option ChallengePayload
  message : Option String
  hints : Option SiweHints
deriving Repr, DecidableEq

/-- `handleChallenge`: `uriStr` models
`(x-forwarded-proto || 'http') + '://' + host`. -/
def handleChallenge (userId : Option String) (method nonce issuedAt expiresAt domain uriStr : String) :
    ChallengeOutcome :=
  let uid := strVal userId
  let intent := if uid.isSome then "link" else "login"
  if method = "personal_sign" then
    let message := buildPersonalSignMessage domain userId nonce issuedAt expiresAt intent
    ⟨200, none, some ⟨1, method, nonce, issuedAt, some expiresAt, domain, some message, uid⟩,
      some message, none⟩
  else if method = "siwe" then
    ⟨200, none, some ⟨1, method, nonce, issuedAt, some expiresAt, domain, none, uid⟩,
      none,
      some ⟨(if intent = "login" then "Sign to sign in"
             else "Sign to link your wallet to your account"), uriStr, "1"⟩⟩
  else ⟨400, some "INVALID_METHOD", none, none, none⟩

/-! ## Favorites replace (`replace_user_favorites` in `src/unnamed/part_000`) -/

/-- A `favorites` row as a (user_id, token_id) pair. -/
abbrev Fav := String × String

/-- The stored token set of one user. -/
def favTokens (db : List Fav) (uid : String) : List String :=
  (db.filter (fun r => r.1 == uid)).map (fun r => r.2)

/-- The transactional body of `replace_user_favorites`: normalize (lowercase
plus DISTINCT), delete rows outside the new set, insert the missing ones with
`ON CONFLICT DO NOTHING`. -/
def replaceFavoritesBody (db : List Fav) (uid : String) (tokens : List String) : List Fav :=
  if tokens.isEmpty then db.filter (fun r => r.1 != uid)
  else
    db.filter (fun r => r.1 != uid || ((tokens.map lowerStr).dedup).contains r.2) ++
      (((tokens.map lowerStr).dedup).filter
        (fun t => ¬ (db.filter (fun r => r.1 != uid ||
          ((tokens.map lowerStr).dedup).contains r.2)).contains (uid, t))).map
        (fun t => (uid, t))

/-- A raised SQL error (SQLSTATE code and message). -/
structure SqlErr where
  code : String
  message : String
deriving Repr, DecidableEq

/-- `replace_user_favorites(p_user_id, p_token_ids)`: re-verify the caller's
`sub` claim against the parameter (`IS DISTINCT FROM`, raising 42501), then
run the body inside the advisory-lock-protected transaction.  Returns the
resulting table and the raised error, if any; an error aborts the transaction,
leaving the table unchanged. -/
def replace_user_favorites (jwtSub : Option String) (p_user_id : String)
    (p_token_ids : List String) (db : List Fav) : List Fav × Option SqlErr :=
  if jwtSub ≠ some p_user_id then (db, some ⟨"42501", "Forbidden"⟩)
  else (replaceFavoritesBody db p_user_id p_token_ids, none)

/-! ## Helper lemmas -/

@[simp] theorem data_mkStr (l : List Char) : (String.mk l).data = l := rfl

theorem mkStr_data (s : String) : String.mk s.data = s := rfl

theorem mkStr_eq_empty_iff (l : List Char) : String.mk l = "" ↔ l = [] := by
  constructor
  · intro h
    have h2 : (String.mk l).data = ("" : String).data := by rw [h]
    simpa using h2
  · intro h; rw [h]

theorem charOfNat_toNat (n : Nat) (h1 : n ≤ 122) : (Char.ofNat n).toNat = n := by
  have hv : n.isValidChar := Or.inl (by omega)
  rw [Char.ofNat, dif_pos hv]
  simp [Char.ofNatAux, Char.toNat, UInt32.toNat]

theorem charToLower_eval (c : Char) (h : 65 ≤ c.toNat ∧ c.toNat ≤ 90) :
    c.toLower = Char.ofNat (c.toNat + 32) := by
  unfold Char.toLower
  exact if_pos h

theorem charToLower_fix (c : Char) (h : ¬ (65 ≤ c.toNat ∧ c.toNat ≤ 90)) :
    c.toLower = c := by
  unfold Char.toLower
  exact if_neg h

theorem charToLower_idem (c : Char) : c.toLower.toLower = c.toLower := by
  by_cases h : 65 ≤ c.toNat ∧ c.toNat ≤ 90
  · rw [charToLower_eval c h]
    apply charToLower_fix
    rw [charOfNat_toNat (c.toNat + 32) (by omega)]
    omega
  · rw [charToLower_fix c h, charToLower_fix c h]

theorem lowerStr_idem (s : String) : lowerStr (lowerStr s) = lowerStr s := by
  unfold lowerStr
  rw [data_mkStr, List.map_map]
  exact congrArg String.mk (List.map_congr_left (fun c _ => charToLower_idem c))

theorem lowerStr_eq_empty_iff (s : String) : lowerStr s = "" ↔ s = "" := by
  unfold lowerStr
  rw [mkStr_eq_empty_iff, List.map_eq_nil_iff]
  constructor
  · intro h
    have h2 : String.mk s.data = String.mk [] := by rw [h]
    simpa [mkStr_data] using h2
  · intro h; rw [h]

theorem jsSplitChars_no_sep (sep : Char) (xs : List Char) (h : ∀ c ∈ xs, c ≠ sep) :
    ∀ acc, jsSplitChars sep xs acc = [String.mk (acc.reverse ++ xs)] := by
  induction xs with
  | nil => intro acc; simp [jsSplitChars]
  | cons c rest ih =>
    intro acc
    have hc : c ≠ sep := h c (by simp)
    rw [jsSplitChars, if_neg hc, ih (fun d hd => h d (by simp [hd]))]
    simp

theorem jsSplitChars_sep_append (sep : Char) (xs : List Char) (h : ∀ c ∈ xs, c ≠ sep)
    (rest : List Char) :
    ∀ acc, jsSplitChars sep (xs ++ sep :: rest) acc =
      String.mk (acc.reverse ++ xs) :: jsSplitChars sep rest [] := by
  induction xs with
  | nil => intro acc; simp [jsSplitChars]
  | cons c tail ih =>
    intro acc
    have hc : c ≠ sep := h c (by simp)
    rw [List.cons_append, jsSplitChars, if_neg hc, ih (fun d hd => h d (by simp [hd]))]
    simp

theorem jsSplit_v1_parts (x y : String) (hx : ∀ c ∈ x.data, c ≠ '.')
    (hy : ∀ c ∈ y.data, c ≠ '.') :
    jsSplit ("v1." ++ x ++ "." ++ y) '.' = ["v1", x, y] := by
  have hdata : ("v1." ++ x ++ "." ++ y).data =
      'v' :: '1' :: '.' :: (x.data ++ '.' :: y.data) := by
    simp [String.data_append]
  unfold jsSplit
  rw [hdata]
  rw [jsSplitChars, if_neg (by decide), jsSplitChars, if_neg (by decide),
    jsSplitChars, if_pos rfl]
  rw [jsSplitChars_sep_append '.' x.data hx y.data, jsSplitChars_no_sep '.' y.data hy]
  simp [mkStr_data]

theorem countP_name_zero_lastVal (name : String) (l : List (String × String))
    (h : l.countP (fun p => p.1 == name) = 0) : lastVal name l = none := by
  induction l with
  | nil => rfl
  | cons p rest ih =>
    by_cases hp : p.1 = name
    · exfalso
      rw [List.countP_cons_of_pos] at h
      · omega
      · simpa using hp
    · rw [List.countP_cons_of_neg] at h
      · rw [lastVal, ih h]
        simp [hp]
      · simpa using hp

theorem firstVal_eq_lastVal (name : String) (l : List (String × String))
    (h : l.countP (fun p => p.1 == name) ≤ 1) : firstVal name l = lastVal name l := by
  induction l with
  | nil => rfl
  | cons p rest ih =>
    by_cases hp : p.1 = name
    · have hrest : rest.countP (fun q => q.1 == name) = 0 := by
        rw [List.countP_cons_of_pos] at h
        · omega
        · simpa using hp
      rw [firstVal, if_pos hp, lastVal, countP_name_zero_lastVal name rest hrest, if_pos hp]
    · have hr : rest.countP (fun q => q.1 == name) ≤ 1 := by
        rw [List.countP_cons_of_neg] at h
        · exact h
        · simpa using hp
      rw [firstVal, if_neg hp, lastVal, ih hr]
      cases hl : lastVal name rest with
      | none => simp [hp]
      | some v => rfl

/-! ## Favorites lemmas -/

theorem mem_favTokens (db : List Fav) (uid t : String) :
    t ∈ favTokens db uid ↔ (uid, t) ∈ db := by
  unfold favTokens
  simp only [List.mem_map, List.mem_filter, beq_iff_eq]
  constructor
  · rintro ⟨r, ⟨hr, hr1⟩, hr2⟩
    have hrt : r = (uid, t) := by
      cases r
      simp only at hr1 hr2
      rw [hr1, hr2]
    rwa [hrt] at hr
  · intro h
    exact ⟨(uid, t), ⟨h, rfl⟩, rfl⟩

theorem contains_iff_mem {α : Type} [BEq α] [LawfulBEq α] (l : List α) (a : α) :
    l.contains a = true ↔ a ∈ l := by
  simp [List.contains_iff_exists_mem_beq, beq_iff_eq]

theorem mem_replaceFavoritesBody (db : List Fav) (uid : String) (tokens : List String)
    (t : String) :
    t ∈ favTokens (replaceFavoritesBody db uid tokens) uid ↔ t ∈ tokens.map lowerStr := by
  unfold replaceFavoritesBody
  by_cases he : tokens.isEmpty
  · rw [if_pos he]
    have ht : tokens = [] := List.isEmpty_iff.mp he
    subst ht
    rw [mem_favTokens]
    simp [List.mem_filter]
  · rw [if_neg he]
    rw [mem_favTokens]
    rw [List.mem_append]
    constructor
    · rintro (hk | hi)
      · have h2 := List.mem_filter.mp hk
        rcases Bool.or_eq_true _ _ |>.mp h2.2 with hl | hr
        · exact absurd hl (by simp)
        · exact List.mem_dedup.mp ((contains_iff_mem _ _).mp hr)
      · rcases List.mem_map.mp hi with ⟨s, hsf, hst⟩
        have hst2 : s = t := by simpa using congrArg Prod.snd hst
        have hs := (List.mem_filter.mp hsf).1
        rw [hst2] at hs
        exact List.mem_dedup.mp hs
    · intro ht
      have hd : t ∈ (tokens.map lowerStr).dedup := List.mem_dedup.mpr ht
      by_cases hk : (uid, t) ∈ db.filter
          (fun r => r.1 != uid || ((tokens.map lowerStr).dedup).contains r.2)
      · exact Or.inl hk
      · right
        apply List.mem_map.mpr
        refine ⟨t, List.mem_filter.mpr ⟨hd, ?_⟩, rfl⟩
        simp only [decide_eq_true_eq]
        intro hc
        exact hk ((contains_iff_mem _ _).mp hc)

theorem favTokens_filter_comm (db : List Fav) (p : Fav → Bool) (v : String)
    (h : ∀ r : Fav, r.1 = v → p r = true) :
    favTokens (db.filter p) v = favTokens db v := by
  unfold favTokens
  rw [List.filter_filter]
  congr 1
  apply List.filter_congr
  intro r _
  by_cases hv : r.1 = v
  · rw [h r hv]
    simp [hv]
  · have : (r.1 == v) = false := by simpa using hv
    simp [this]

theorem replaceFavoritesBody_other_user (db : List Fav) (uid : String)
    (tokens : List String) (v : String) (hv : v ≠ uid) :
    favTokens (replaceFavoritesBody db uid tokens) v = favTokens db v := by
  unfold replaceFavoritesBody
  by_cases he : tokens.isEmpty
  · rw [if_pos he]
    apply favTokens_filter_comm
    intro r hr
    rw [hr]
    simpa using hv
  · rw [if_neg he]
    unfold favTokens
    rw [List.filter_append, List.map_append]
    have h2 : (((tokens.map lowerStr).dedup.filter
        (fun t => ¬ (db.filter (fun r => r.1 != uid ||
          ((tokens.map lowerStr).dedup).contains r.2)).contains (uid, t))).map
            (fun t => (uid, t))).filter (fun r => r.1 == v) = [] := by
      rw [List.filter_eq_nil_iff]
      intro r hr
      rcases List.mem_map.mp hr with ⟨t, _, hrt⟩
      rw [← hrt]
      simpa using (Ne.symm hv)
    rw [h2]
    simp only [List.map_nil, List.append_nil]
    have h3 := favTokens_filter_comm db
      (fun r => r.1 != uid || ((tokens.map lowerStr).dedup).contains r.2) v
      (fun r hr => by
        show (r.1 != uid || ((tokens.map lowerStr).dedup).contains r.2) = true
        rw [hr]
        simp [hv])
    unfold favTokens at h3
    exact h3

theorem replaceFavoritesBody_idem (db : List Fav) (uid : String) (tokens : List String) :
    replaceFavoritesBody (replaceFavoritesBody db uid tokens) uid tokens =
      replaceFavoritesBody db uid tokens := by
  by_cases he : tokens.isEmpty
  · unfold replaceFavoritesBody
    rw [if_pos he, if_pos he, List.filter_filter]
    apply List.filter_congr
    intro r _
    exact Bool.and_self _
  · unfold replaceFavoritesBody
    rw [if_neg he, if_neg he]
    have hkept : ∀ r ∈ (db.filter (fun r => r.1 != uid ||
          ((tokens.map lowerStr).dedup).contains r.2)) ++
        (((tokens.map lowerStr).dedup.filter (fun t => ¬ (db.filter (fun r => r.1 != uid ||
          ((tokens.map lowerStr).dedup).contains r.2)).contains (uid, t))).map
          (fun t => (uid, t))),
        (r.1 != uid || ((tokens.map lowerStr).dedup).contains r.2) = true := by
      intro r hr
      rcases List.mem_append.mp hr with hk | hi
      · exact (List.mem_filter.mp hk).2
      · rcases List.mem_map.mp hi with ⟨t, htf, hrt⟩
        have ht := (List.mem_filter.mp htf).1
        rw [← hrt]
        simp only [Bool.or_eq_true]
        right
        exact (contains_iff_mem _ _).mpr ht
    rw [List.filter_eq_self.mpr hkept]
    have hins : ((tokens.map lowerStr).dedup.filter
        (fun t => ¬ ((db.filter (fun r => r.1 != uid ||
            ((tokens.map lowerStr).dedup).contains r.2)) ++
          (((tokens.map lowerStr).dedup.filter (fun t => ¬ (db.filter (fun r => r.1 != uid ||
            ((tokens.map lowerStr).dedup).contains r.2)).contains (uid, t))).map
            (fun t => (uid, t)))).contains (uid, t))) = [] := by
      rw [List.filter_eq_nil_iff]
      intro t ht
      simp only [decide_eq_true_eq, not_not]
      apply (contains_iff_mem _ _).mpr
      rw [List.mem_append]
      by_cases hk : (uid, t) ∈ db.filter (fun r => r.1 != uid ||
          ((tokens.map lowerStr).dedup).contains r.2)
      · exact Or.inl hk
      · right
        apply List.mem_map.mpr
        refine ⟨t, List.mem_filter.mpr ⟨ht, ?_⟩, rfl⟩
        simp only [decide_eq_true_eq]
        intro hc
        exact hk ((contains_iff_mem _ _).mp hc)
    rw [hins]
    exact List.append_nil _

/-! ## Claim C3 -/

/-- C3: a successful favorites replace leaves the stored set for the user
equal exactly to the lowercased, de-duplicated input set regardless of the
prior contents, leaves other users' rows alone, is idempotent, and on the
concrete scenario `replace u [BTC, btc, eth]` stores exactly
`[btc, eth]`. -/
theorem favorites_replace_set_semantics :
    (∀ (db : List Fav) (uid : String) (tokens : List String) (t : String),
        t ∈ favTokens (replaceFavoritesBody db uid tokens) uid ↔ t ∈ tokens.map lowerStr) ∧
    (∀ (db : List Fav) (uid : String) (tokens : List String) (v : String), v ≠ uid →
        favTokens (replaceFavoritesBody db uid tokens) v = favTokens db v) ∧
    (∀ (db : List Fav) (uid : String) (tokens : List String),
        replaceFavoritesBody (replaceFavoritesBody db uid tokens) uid tokens =
          replaceFavoritesBody db uid tokens) ∧
    favTokens (replaceFavoritesBody [("u", "doge"), ("v", "btc")] "u"
      ["BTC", "btc", "eth"]) "u" = ["btc", "eth"] :=
  ⟨mem_replaceFavoritesBody, replaceFavoritesBody_other_user, replaceFavoritesBody_idem,
    by decide⟩

/-- C3 witness: the general parts of the theorem instantiated on concrete
data. -/
theorem favorites_replace_set_semantics_inst :
    ("btc" ∈ favTokens (replaceFavoritesBody [("u", "doge"), ("v", "btc")] "u"
        ["BTC", "btc", "eth"]) "u" ↔ "btc" ∈ ["BTC", "btc", "eth"].map lowerStr) ∧
    favTokens (replaceFavoritesBody [("u", "doge"), ("v", "btc")] "u"
        ["BTC", "btc", "eth"]) "v" = favTokens [("u", "doge"), ("v", "btc")] "v" :=
  ⟨favorites_replace_set_semantics.1 [("u", "doge"), ("v", "btc")] "u" ["BTC", "btc", "eth"] "btc",
   favorites_replace_set_semantics.2.1 [("u", "doge"), ("v", "btc")] "u" ["BTC", "btc", "eth"] "v"
     (by decide)⟩

/-! ## Claim C7 -/

/-- C7: the favorites-replace callable raises Forbidden (SQLSTATE 42501) and
leaves the table unchanged whenever the caller's verified `sub` claim differs
from `p_user_id`, and mutates rows exactly when they are equal. -/
theorem favorites_rpc_auth_gate (jwtSub : Option String) (uid : String)
    (tokens : List String) (db : List Fav) :
    (jwtSub ≠ some uid →
        replace_user_favorites jwtSub uid tokens db = (db, some ⟨"42501", "Forbidden"⟩)) ∧
    (jwtSub = some uid →
        replace_user_favorites jwtSub uid tokens db =
          (replaceFavoritesBody db uid tokens, none)) ∧
    ((replace_user_favorites jwtSub uid tokens db).2 = none ↔ jwtSub = some uid) := by
  unfold replace_user_favorites
  by_cases h : jwtSub = some uid
  · simp [h]
  · simp [h]

/-- C7 witness: a forged parameter is rejected with 42501 and no mutation; a
matching claim mutates. -/
theorem favorites_rpc_auth_gate_inst :
    replace_user_favorites (some "alice") "bob" ["btc"] [("bob", "eth")] =
      ([("bob", "eth")], some ⟨"42501", "Forbidden"⟩) ∧
    replace_user_favorites (some "bob") "bob" ["btc"] [("bob", "eth")] =
      (replaceFavoritesBody [("bob", "eth")] "bob" ["btc"], none) :=
  ⟨(favorites_rpc_auth_gate (some "alice") "bob" ["btc"] [("bob", "eth")]).1 (by decide),
   (favorites_rpc_auth_gate (some "bob") "bob" ["btc"] [("bob", "eth")]).2.1 rfl⟩

/-! ## Claim C8 -/

/-- C8 counterexample: a siwe challenge is issued (payload present) but its
payload carries no message field, contradicting the claim that the exact
message text is stored for siwe. -/
theorem siwe_challenge_stores_no_message :
    ((handleChallenge (some "u1") "siwe" "n1" "t0" "t1" "ab.c" "http://ab.c").payload.bind
        ChallengePayload.message) = none ∧
    ((handleChallenge (some "u1") "siwe" "n1" "t0" "t1" "ab.c" "http://ab.c").payload).isSome
      = true := by
  decide

/-- C8 amended: the siwe challenge payload stores no message text (the client
assembles the message from the returned hints and verification checks the
client-supplied text against the challenge nonce and domain); the exact
message text is stored in the challenge payload only for the personal_sign
method. -/
theorem challenge_payload_message_by_method (userId : Option String)
    (nonce issuedAt expiresAt domain uriStr : String) :
    (handleChallenge userId "siwe" nonce issuedAt expiresAt domain uriStr).payload =
      some ⟨1, "siwe", nonce, issuedAt, some expiresAt, domain, none, strVal userId⟩ ∧
    (handleChallenge userId "personal_sign" nonce issuedAt expiresAt domain uriStr).payload =
      some ⟨1, "personal_sign", nonce, issuedAt, some expiresAt, domain,
        some (buildPersonalSignMessage domain userId nonce issuedAt expiresAt
          (if (strVal userId).isSome then "link" else "login")), strVal userId⟩ := by
  constructor
  · unfold handleChallenge
    rw [if_neg (by decide), if_pos rfl]
  · unfold handleChallenge
    rw [if_pos rfl]

instance exceptDecEq {ε α : Type} [DecidableEq ε] [DecidableEq α] :
    DecidableEq (Except ε α) := fun a b =>
  match a, b with
  | .error e, .error f =>
    if h : e = f then isTrue (congrArg Except.error h)
    else isFalse (fun hc => h (by injection hc))
  | .error _, .ok _ => isFalse (fun hc => Except.noConfusion hc)
  | .ok _, .error _ => isFalse (fun hc => Except.noConfusion hc)
  | .ok x, .ok y =>
    if h : x = y then isTrue (congrArg Except.ok h)
    else isFalse (fun hc => h (by injection hc))

/-! ## Claim C5 -/

/-- C5: decoding the cookie value produced by encoding a well-formed challenge
returns exactly that challenge.  The hypotheses are the round-trip properties
of the abstracted primitives (base64url inverts on the serialized payload, the
JSON codec inverts on the challenge, neither the base64url text nor the MAC
contains the dot delimiter) and the claim's own precondition that the
challenge's expiry is not yet past. -/
theorem challenge_codec_roundtrip (hmac b64e b64d : String → String)
    (ser : ChallengePayload → String) (deser : String → Option ChallengePayload)
    (parseTime : String → Option Int) (now : Int) (c : ChallengePayload)
    (hb : b64d (b64e (ser c)) = ser c)
    (hd : deser (ser c) = some c)
    (hdot1 : ∀ ch ∈ (b64e (ser c)).data, ch ≠ '.')
    (hdot2 : ∀ ch ∈ (hmac (ser c)).data, ch ≠ '.')
    (hexp : ∀ t, c.expiresAt = some t → ∀ v, parseTime t = some v → now ≤ v) :
    decodeChallengeValue hmac b64d deser parseTime now
      (some (encodeChallengeValue hmac b64e ser c)) = .ok c := by
  have hsplit := jsSplit_v1_parts (b64e (ser c)) (hmac (ser c)) hdot1 hdot2
  have hdata : ("v1." ++ b64e (ser c) ++ "." ++ hmac (ser c)).data =
      'v' :: '1' :: '.' :: ((b64e (ser c)).data ++ '.' :: (hmac (ser c)).data) := by
    simp [String.data_append]
  have hne : ("v1." ++ b64e (ser c) ++ "." ++ hmac (ser c)) ≠ "" := by
    intro hcontra
    have h0 := congrArg String.data hcontra
    rw [hdata] at h0
    simp at h0
  unfold encodeChallengeValue
  simp only [decodeChallengeValue]
  rw [if_neg hne, hsplit]
  rw [if_neg (by simp [partAt])]
  have hg1 : partAt ["v1", b64e (ser c), hmac (ser c)] 1 = b64e (ser c) := rfl
  have hg2 : partAt ["v1", b64e (ser c), hmac (ser c)] 2 = hmac (ser c) := rfl
  rw [hg1, hg2, hb]
  rw [if_neg (by simp)]
  simp only [hd]
  cases hc : c.expiresAt with
  | none => simp
  | some t =>
    simp only []
    by_cases ht : t = ""
    · rw [if_pos ht]
    · rw [if_neg ht]
      cases hpt : parseTime t with
      | none => rfl
      | some v =>
        simp only []
        rw [if_neg]
        simp only [gt_iff_lt, not_lt]
        exact hexp t hc v hpt

/-- Concrete challenge used by witnesses. -/
def wCh : ChallengePayload := ⟨1, "siwe", "n1", "t0", some "t1", "ab.c", none, some "u1"⟩

/-- Concrete serializer for witnesses. -/
def wSer : ChallengePayload → String := fun p => if p = wCh then "payload" else "other"

/-- Concrete payload parser for witnesses, inverse of `wSer` at `wCh`. -/
def wDeser : String → Option ChallengePayload :=
  fun s => if s = "payload" then some wCh else none

/-- Concrete MAC for witnesses. -/
def wHmac : String → String := fun _ => "mac"

/-- Concrete `Date` parser for witnesses. -/
def wParseTime : String → Option Int := fun t => if t = "t1" then some 5 else none

/-- C5 witness: the round-trip theorem applied at a concrete challenge under
concrete primitives, with every hypothesis discharged by evaluation. -/
theorem challenge_codec_roundtrip_inst :
    decodeChallengeValue wHmac id wDeser wParseTime 3
      (some (encodeChallengeValue wHmac id wSer wCh)) = .ok wCh :=
  challenge_codec_roundtrip wHmac id id wSer wDeser wParseTime 3 wCh
    (by decide) (by decide) (by decide) (by decide)
    (by
      intro t ht v hv
      simp [wCh] at ht
      subst ht
      simp [wParseTime] at hv
      omega)

/-! ## Claim C10 -/

/-- Shared concrete payload parser for the decoder-comparison claim. -/
def wDeserP : String → Option ChallengePayload :=
  fun s => if s = "p" then some ⟨1, "siwe", "n", "t0", none, "d", none, none⟩ else none

/-- Shared concrete MAC for the decoder-comparison claim. -/
def wHmacP : String → String := fun _ => "m"

/-- C10 counterexample: on a header carrying two cookies named
`wallet_challenge` (a valid first one and a garbage second one), the wallet
route's decoder succeeds while the NextAuth route's decoder rejects, so the
two decoders are not equivalent on every request. -/
theorem challenge_decoders_differ_on_duplicate_cookie :
    walletReadChallengeCookie wHmacP id wDeserP (fun _ => none) id
        "wallet_challenge=v1.p.m; wallet_challenge=x" 0 ≠
      nextauthReadChallengeCookie wHmacP id wDeserP (fun _ => none) id
        "wallet_challenge=v1.p.m; wallet_challenge=x" 0 := by
  decide

/-- C10 amended: the two decoders agree on every request whose header carries
at most one cookie named `wallet_challenge` (with several, `wallet.js` uses
the first and the NextAuth route the last, so they can disagree). -/
theorem challenge_decoders_agree_single_cookie (hmac b64d : String → String)
    (deser : String → Option ChallengePayload) (parseTime : String → Option Int)
    (uriDecode : String → String) (header : String) (now : Int)
    (h : (cookiePairs uriDecode header).countP (fun p => p.1 == "wallet_challenge") ≤ 1) :
    walletReadChallengeCookie hmac b64d deser parseTime uriDecode header now =
      nextauthReadChallengeCookie hmac b64d deser parseTime uriDecode header now := by
  unfold walletReadChallengeCookie nextauthReadChallengeCookie decodeChallengeValue
  rw [firstVal_eq_lastVal "wallet_challenge" (cookiePairs uriDecode header) h]

/-- C10 amended witness: agreement on a single-cookie header. -/
theorem challenge_decoders_agree_single_cookie_inst :
    walletReadChallengeCookie wHmacP id wDeserP (fun _ => none) id
        "wallet_challenge=v1.p.m" 0 =
      nextauthReadChallengeCookie wHmacP id wDeserP (fun _ => none) id
        "wallet_challenge=v1.p.m" 0 :=
  challenge_decoders_agree_single_cookie wHmacP id wDeserP (fun _ => none) id
    "wallet_challenge=v1.p.m" 0 (by decide)

/-! ## Profile-store lemmas and claim C2 -/

theorem find?_map_update (rest : List Profile) (uid : String) (f : Profile → Profile)
    (hf : ∀ p, (f p).user_id = p.user_id) :
    (rest.map (fun p => if p.user_id = uid then f p else p)).find?
        (fun p => p.user_id == uid) =
      (rest.find? (fun p => p.user_id == uid)).map f := by
  induction rest with
  | nil => rfl
  | cons p t ih =>
    rw [List.map_cons]
    by_cases hp : p.user_id = uid
    · rw [if_pos hp]
      rw [@List.find?_cons_of_pos Profile (fun q => q.user_id == uid) (f p) _
          (show ((f p).user_id == uid) = true by rw [hf]; simpa using hp),
        @List.find?_cons_of_pos Profile (fun q => q.user_id == uid) p _ (by simpa using hp)]
      rfl
    · rw [if_neg hp]
      rw [@List.find?_cons_of_neg Profile (fun q => q.user_id == uid) p _ (by simpa using hp),
        @List.find?_cons_of_neg Profile (fun q => q.user_id == uid) p _ (by simpa using hp)]
      exact ih

theorem dbFindByUser_update (db : List Profile) (uid : String) (w ts : Option String) :
    dbFindByUser (dbUpdateWallet db uid w ts) uid =
      (dbFindByUser db uid).map
        (fun p => { p with wallet_address := normalize_wallet_lowercase w,
                           wallet_linked_at := ts }) := by
  unfold dbFindByUser dbUpdateWallet
  exact find?_map_update db uid _ (fun p => rfl)

theorem handleLink_no_conflict (db : List Profile) (uid addr nowIso : String)
    (writeErr : Option DbErr)
    (hall : ∀ p, dbFindByWallet db addr = some p → p.user_id = uid) :
    handleLink db uid addr nowIso writeErr = handleLinkStore db uid addr nowIso writeErr := by
  unfold handleLink
  split
  · rename_i p hw
    exact if_neg (not_not_intro (hall p hw))
  · rfl

theorem handleLinkStore_success (db : List Profile) (uid addr nowIso : String)
    (q : Profile) (hq : dbFindByUser db uid = some q)
    (hl : lowerStr addr = addr) (hne : addr ≠ "") :
    handleLinkStore db uid addr nowIso none =
      ⟨200, "OK", some addr, some nowIso, dbUpdateWallet db uid (some addr) (some nowIso)⟩ := by
  have hnorm : normalize_wallet_lowercase (some addr) = some addr := by
    show (if lowerStr addr = "" then none else some (lowerStr addr)) = some addr
    rw [hl, if_neg hne]
  unfold handleLinkStore
  simp only [hq, dbFindByUser_update, Option.map_some', hnorm]

/-- C2: at the store phase, a conflicting holder of the address is rejected
with 409 `WALLET_TAKEN` before any write; a missing caller row (which is
exactly when the update would affect zero rows) is rejected with
`PROFILE_NOT_FOUND`; a unique-constraint violation raised by the write is
mapped to 409 `WALLET_TAKEN`; otherwise the normalized address is stored on
the caller's row and the response reports success with the stored address and
the link timestamp. -/
theorem handleLink_store_contract (db : List Profile) (uid addr nowIso : String)
    (writeErr : Option DbErr) :
    (∀ p, dbFindByWallet db addr = some p → p.user_id ≠ uid →
        handleLink db uid addr nowIso writeErr = ⟨409, "WALLET_TAKEN", none, none, db⟩) ∧
    ((∀ p, dbFindByWallet db addr = some p → p.user_id = uid) →
      dbFindByUser db uid = none →
        handleLink db uid addr nowIso writeErr = ⟨404, "PROFILE_NOT_FOUND", none, none, db⟩) ∧
    (∀ e, writeErr = some e → isUniqueViolation e = true →
      (∀ p, dbFindByWallet db addr = some p → p.user_id = uid) →
      dbFindByUser db uid ≠ none →
        handleLink db uid addr nowIso writeErr = ⟨409, "WALLET_TAKEN", none, none, db⟩) ∧
    (writeErr = none → lowerStr addr = addr → addr ≠ "" →
      (∀ p, dbFindByWallet db addr = some p → p.user_id = uid) →
      dbFindByUser db uid ≠ none →
        handleLink db uid addr nowIso writeErr =
          ⟨200, "OK", some addr, some nowIso,
            dbUpdateWallet db uid (some addr) (some nowIso)⟩) := by
  refine ⟨?_, ?_, ?_, ?_⟩
  · intro p hp hne
    unfold handleLink
    split
    · rename_i q hw
      have hq2 : q = p := Option.some.inj (hw.symm.trans hp)
      rw [if_pos (show q.user_id ≠ uid by rw [hq2]; exact hne)]
    · rename_i hw
      exact Option.noConfusion (hw.symm.trans hp)
  · intro hall hnone
    rw [handleLink_no_conflict db uid addr nowIso writeErr hall]
    unfold handleLinkStore
    rw [hnone]
  · intro e he huniq hall hne
    rw [handleLink_no_conflict db uid addr nowIso writeErr hall]
    rcases hq : dbFindByUser db uid with _ | q
    · exact absurd hq hne
    · unfold handleLinkStore
      simp [hq, he, huniq]
  · intro hwe hl hne0 hall hne
    rw [handleLink_no_conflict db uid addr nowIso writeErr hall, hwe]
    rcases hq : dbFindByUser db uid with _ | q
    · exact absurd hq hne
    · exact handleLinkStore_success db uid addr nowIso q hq hl hne0

/-- C2 witness: concrete conflict rejection and concrete successful write. -/
theorem handleLink_store_contract_inst :
    handleLink [⟨"u1", none, none⟩, ⟨"u2", some "0xaa", some "t0"⟩] "u1" "0xaa" "t1" none =
      ⟨409, "WALLET_TAKEN", none, none,
        [⟨"u1", none, none⟩, ⟨"u2", some "0xaa", some "t0"⟩]⟩ ∧
    handleLink [⟨"u1", none, none⟩, ⟨"u2", some "0xaa", some "t0"⟩] "u1" "0xbb" "t1" none =
      ⟨200, "OK", some "0xbb", some "t1",
        dbUpdateWallet [⟨"u1", none, none⟩, ⟨"u2", some "0xaa", some "t0"⟩] "u1"
          (some "0xbb") (some "t1")⟩ :=
  ⟨(handleLink_store_contract [⟨"u1", none, none⟩, ⟨"u2", some "0xaa", some "t0"⟩]
      "u1" "0xaa" "t1" none).1 ⟨"u2", some "0xaa", some "t0"⟩ (by decide) (by decide),
   (handleLink_store_contract [⟨"u1", none, none⟩, ⟨"u2", some "0xaa", some "t0"⟩]
      "u1" "0xbb" "t1" none).2.2.2 rfl (by decide) (by decide)
     (fun p hp => by
       rw [show dbFindByWallet [⟨"u1", none, none⟩, ⟨"u2", some "0xaa", some "t0"⟩] "0xbb"
           = none from by decide] at hp
       exact Option.noConfusion hp)
     (by decide)⟩

/-! ## Claim C6 -/

/-- The store invariant: every present wallet address is lowercase. -/
def walletsLower (db : List Profile) : Prop :=
  ∀ p ∈ db, ∀ s, p.wallet_address = some s → lowerStr s = s

theorem walletsLower_update (db : List Profile) (uid : String) (w ts : Option String)
    (h : walletsLower db) : walletsLower (dbUpdateWallet db uid w ts) := by
  intro p hp s hs
  rcases List.mem_map.mp hp with ⟨q, hq, hfq⟩
  by_cases hu : q.user_id = uid
  · rw [if_pos hu] at hfq
    rw [← hfq] at hs
    have hs1 : normalize_wallet_lowercase w = some s := hs
    cases w with
    | none => exact Option.noConfusion hs1
    | some s0 =>
      have hs2 : (if lowerStr s0 = "" then none else some (lowerStr s0)) = some s := hs1
      by_cases h0 : lowerStr s0 = ""
      · rw [if_pos h0] at hs2
        exact Option.noConfusion hs2
      · rw [if_neg h0] at hs2
        have hs3 : lowerStr s0 = s := Option.some.inj hs2
        rw [← hs3]
        exact lowerStr_idem s0
  · rw [if_neg hu] at hfq
    rw [← hfq] at hs
    exact h q hq s hs

theorem handleLink_db_cases (db : List Profile) (uid addr nowIso : String)
    (writeErr : Option DbErr) :
    (handleLink db uid addr nowIso writeErr).db = db ∨
    (handleLink db uid addr nowIso writeErr).db =
      dbUpdateWallet db uid (some addr) (some nowIso) := by
  unfold handleLink handleLinkStore
  repeat' split
  all_goals
    try (rcases hfind : dbFindByUser (dbUpdateWallet db uid (some addr) (some nowIso)) uid
        with _ | p <;>
      simp [hfind])

theorem walletsLower_handleLink (db : List Profile) (uid addr nowIso : String)
    (writeErr : Option DbErr) (h : walletsLower db) :
    walletsLower (handleLink db uid addr nowIso writeErr).db := by
  rcases handleLink_db_cases db uid addr nowIso writeErr with hcase | hcase
  · rw [hcase]; exact h
  · rw [hcase]; exact walletsLower_update db uid _ _ h

theorem walletsLower_handleUnlink (db : List Profile) (uid : String)
    (h : walletsLower db) : walletsLower (handleUnlink db uid).db := by
  unfold handleUnlink
  split
  · exact walletsLower_update db uid none none h
  · exact walletsLower_update db uid none none h

theorem walletsLower_linkCase (recover : String → String → Option String)
    (isAddr : String → Bool) (userId : String) (tokenWallet : Option String)
    (chall : Except String ChallengePayload) (method : String)
    (signature siweMessage : Option String) (host : String) (now : Int)
    (parseTime : String → Option Int) (db : List Profile) (nowIso : String)
    (writeErr : Option DbErr) (h : walletsLower db) :
    walletsLower (linkCase recover isAddr userId tokenWallet chall method signature
      siweMessage host now parseTime db nowIso writeErr).db := by
  unfold linkCase
  repeat' split
  all_goals first
    | exact h
    | exact walletsLower_handleLink db userId _ nowIso writeErr h

theorem recoveredToWallet_lower (isAddr : String → Bool) (recAddr w : String)
    (h : recoveredToWallet isAddr recAddr = .ok w) : lowerStr w = w := by
  unfold recoveredToWallet at h
  split at h
  · exact Except.noConfusion h
  · split at h
    · exact Except.noConfusion h
    · have h2 := Except.ok.inj h
      rw [← h2]
      exact lowerStr_idem recAddr

/-- C6: every operation of the subsystem preserves the lowercase invariant on
stored wallet addresses (handleLink, handleUnlink, and the whole link case,
including the session-trust path), the trigger output always satisfies the
CHECK constraint, every address the verification pipeline hands to the store
phase is already lowercase, a concrete mixed-case submission is stored
lowercased, and a subsequent check for the user reports the wallet as
linked. -/
theorem wallet_lowercase_invariant :
    (∀ (db : List Profile) (uid addr nowIso : String) (writeErr : Option DbErr),
        walletsLower db → walletsLower (handleLink db uid addr nowIso writeErr).db) ∧
    (∀ (db : List Profile) (uid : String), walletsLower db →
        walletsLower (handleUnlink db uid).db) ∧
    (∀ (recover : String → String → Option String) (isAddr : String → Bool)
        (userId : String) (tokenWallet : Option String)
        (chall : Except String ChallengePayload) (method : String)
        (signature siweMessage : Option String) (host : String) (now : Int)
        (parseTime : String → Option Int) (db : List Profile) (nowIso : String)
        (writeErr : Option DbErr), walletsLower db →
        walletsLower (linkCase recover isAddr userId tokenWallet chall method signature
          siweMessage host now parseTime db nowIso writeErr).db) ∧
    (∀ w, walletLowercaseCheck (normalize_wallet_lowercase w) = true) ∧
    (∀ (isAddr : String → Bool) (recAddr w : String),
        recoveredToWallet isAddr recAddr = .ok w → lowerStr w = w) ∧
    recoveredToWallet (fun _ => true) "0xABCDEF0123456789abcdef0123456789ABCDEF01" =
      .ok "0xabcdef0123456789abcdef0123456789abcdef01" ∧
    handleLink [⟨"u1", none, none⟩] "u1"
        "0xabcdef0123456789abcdef0123456789abcdef01" "t1" none =
      ⟨200, "OK", some "0xabcdef0123456789abcdef0123456789abcdef01", some "t1",
        [⟨"u1", some "0xabcdef0123456789abcdef0123456789abcdef01", some "t1"⟩]⟩ ∧
    handleCheck [⟨"u1", some "0xabcdef0123456789abcdef0123456789abcdef01", some "t1"⟩]
        "u1" = ⟨true, some "0xabcdef0123456789abcdef0123456789abcdef01", some "t1"⟩ ∧
    (∀ (db : List Profile) (uid addr nowIso : String) (q : Profile),
        dbFindByUser db uid = some q → lowerStr addr = addr → addr ≠ "" →
        (∀ p, dbFindByWallet db addr = some p → p.user_id = uid) →
        (handleCheck (handleLink db uid addr nowIso none).db uid).isLinked = true) := by
  refine ⟨walletsLower_handleLink, walletsLower_handleUnlink, walletsLower_linkCase,
    ?_, recoveredToWallet_lower, by decide, by decide, by decide, ?_⟩
  · intro w
    cases w with
    | none => rfl
    | some s =>
      show (match (if lowerStr s = "" then none else some (lowerStr s)) with
            | none => true
            | some s2 => s2 == lowerStr s2) = true
      by_cases h0 : lowerStr s = ""
      · rw [if_pos h0]
      · rw [if_neg h0]
        show (lowerStr s == lowerStr (lowerStr s)) = true
        rw [lowerStr_idem s]
        simp
  · intro db uid addr nowIso q hq hl hne hall
    rw [handleLink_no_conflict db uid addr nowIso none hall,
      handleLinkStore_success db uid addr nowIso q hq hl hne]
    have hnorm : normalize_wallet_lowercase (some addr) = some addr := by
      show (if lowerStr addr = "" then none else some (lowerStr addr)) = some addr
      rw [hl, if_neg hne]
    unfold handleCheck
    simp only [dbFindByUser_update, hq, Option.map_some', hnorm]
    show ((if addr = "" then none else some addr) : Option String).isSome = true
    rw [if_neg hne]
    rfl

/-- C6 witness: invariant preservation and linked status on concrete data. -/
theorem wallet_lowercase_invariant_inst :
    walletsLower (handleLink [⟨"u1", none, none⟩] "u1"
      "0xabcdef0123456789abcdef0123456789abcdef01" "t1" none).db ∧
    (handleCheck (handleLink [⟨"u1", none, none⟩] "u1"
      "0xabcdef0123456789abcdef0123456789abcdef01" "t1" none).db "u1").isLinked = true := by
  have hW : walletsLower [⟨"u1", none, none⟩] := by
    intro p hp s hs
    rw [List.mem_singleton] at hp
    rw [hp] at hs
    exact Option.noConfusion hs
  constructor
  · exact wallet_lowercase_invariant.1 _ "u1" _ "t1" none hW
  · apply wallet_lowercase_invariant.2.2.2.2.2.2.2.2 [⟨"u1", none, none⟩] "u1"
      "0xabcdef0123456789abcdef0123456789abcdef01" "t1" ⟨"u1", none, none⟩
      (by decide) (by decide) (by decide)
    intro p hp
    rw [show dbFindByWallet [⟨"u1", none, none⟩]
        "0xabcdef0123456789abcdef0123456789abcdef01" = none from by decide] at hp
    exact Option.noConfusion hp

/-! ## Claim C4 -/

/-- C4: the decode cascade returns each of the five error codes exactly under
its own condition, never conflating them: `NO_CHALLENGE` iff the cookie is
absent (or carries the empty value, which JS truthiness treats as absent),
`INVALID_COOKIE` iff the value does not split into exactly three dot-delimited
parts or the version tag is not `v1`, `TAMPERED` iff the recomputed MAC over
the decoded payload text differs from the transmitted one, `INVALID_JSON` iff
the payload fails to parse, `EXPIRED` iff the parsed `expiresAt` lies before
the current time — and otherwise decoding succeeds with the parsed payload. -/
theorem challenge_decode_error_taxonomy (hmac b64d : String → String)
    (deser : String → Option ChallengePayload) (parseTime : String → Option Int)
    (now : Int) (raw : Option String) :
    (decodeChallengeValue hmac b64d deser parseTime now raw = .error "NO_CHALLENGE" ↔
      raw = none ∨ raw = some "") ∧
    (decodeChallengeValue hmac b64d deser parseTime now raw = .error "INVALID_COOKIE" ↔
      ∃ r, raw = some r ∧ r ≠ "" ∧
        ((jsSplit r '.').length ≠ 3 ∨ partAt (jsSplit r '.') 0 ≠ "v1")) ∧
    (decodeChallengeValue hmac b64d deser parseTime now raw = .error "TAMPERED" ↔
      ∃ r, raw = some r ∧ r ≠ "" ∧ (jsSplit r '.').length = 3 ∧
        partAt (jsSplit r '.') 0 = "v1" ∧
        partAt (jsSplit r '.') 2 ≠ hmac (b64d (partAt (jsSplit r '.') 1))) ∧
    (decodeChallengeValue hmac b64d deser parseTime now raw = .error "INVALID_JSON" ↔
      ∃ r, raw = some r ∧ r ≠ "" ∧ (jsSplit r '.').length = 3 ∧
        partAt (jsSplit r '.') 0 = "v1" ∧
        partAt (jsSplit r '.') 2 = hmac (b64d (partAt (jsSplit r '.') 1)) ∧
        deser (b64d (partAt (jsSplit r '.') 1)) = none) ∧
    (decodeChallengeValue hmac b64d deser parseTime now raw = .error "EXPIRED" ↔
      ∃ r, raw = some r ∧ r ≠ "" ∧ (jsSplit r '.').length = 3 ∧
        partAt (jsSplit r '.') 0 = "v1" ∧
        partAt (jsSplit r '.') 2 = hmac (b64d (partAt (jsSplit r '.') 1)) ∧
        ∃ p, deser (b64d (partAt (jsSplit r '.') 1)) = some p ∧
          ∃ t, p.expiresAt = some t ∧ t ≠ "" ∧ ∃ v, parseTime t = some v ∧ v < now) ∧
    ((∃ p, decodeChallengeValue hmac b64d deser parseTime now raw = .ok p) ↔
      ∃ r, raw = some r ∧ r ≠ "" ∧ (jsSplit r '.').length = 3 ∧
        partAt (jsSplit r '.') 0 = "v1" ∧
        partAt (jsSplit r '.') 2 = hmac (b64d (partAt (jsSplit r '.') 1)) ∧
        ∃ p, deser (b64d (partAt (jsSplit r '.') 1)) = some p ∧
          ¬ (∃ t, p.expiresAt = some t ∧ t ≠ "" ∧ ∃ v, parseTime t = some v ∧ v < now)) := by
  rcases raw with _ | r
  · simp [decodeChallengeValue]
  · by_cases hr : r = ""
    · simp [decodeChallengeValue, hr]
    · by_cases h3 : (jsSplit r '.').length = 3
      · by_cases hv1 : partAt (jsSplit r '.') 0 = "v1"
        · by_cases hsig :
            partAt (jsSplit r '.') 2 = hmac (b64d (partAt (jsSplit r '.') 1))
          · rcases hd : deser (b64d (partAt (jsSplit r '.') 1)) with _ | p
            · simp [decodeChallengeValue, hr, h3, hv1, hsig, hd]
            · rcases hexp : p.expiresAt with _ | t
              · simp [decodeChallengeValue, hr, h3, hv1, hsig, hd, hexp]
              · by_cases ht : t = ""
                · simp [decodeChallengeValue, hr, h3, hv1, hsig, hd, hexp, ht]
                · rcases hpt : parseTime t with _ | v
                  · simp [decodeChallengeValue, hr, h3, hv1, hsig, hd, hexp, ht, hpt]
                  · by_cases hvn : v < now
                    · simp [decodeChallengeValue, hr, h3, hv1, hsig, hd, hexp, ht,
                        hpt, hvn]
                    · simp [decodeChallengeValue, hr, h3, hv1, hsig, hd, hexp, ht,
                        hpt, hvn]
                      omega
          · simp [decodeChallengeValue, hr, h3, hv1, hsig]
        · simp [decodeChallengeValue, hr, h3, hv1]
      · simp [decodeChallengeValue, hr, h3]

/-! ## Claim C1 -/

/-- C1: for a siwe verify+link request the handler applies the five checks in
the claimed order — nonce, domain, recovery, address, expiration — each with
exactly the claimed rejection code (the gate cascade equals the cascade
transcribed from the specification sentence), and the wallet address reaches
the store phase only if none of these gates fires.  The hypothesis on
`recover` records that viem returns a nonempty address string whenever it
succeeds. -/
theorem siwe_gate_order (recover : String → String → Option String)
    (isAddr : String → Bool) (payload : ChallengePayload) (m sg : String)
    (now : Int) (parseTime : String → Option Int)
    (hrec : ∀ a b r, recover a b = some r → r ≠ "") :
    siweGates recover payload m sg now parseTime =
      siweGatesSpec recover payload m sg now parseTime ∧
    (∀ w, siweLinkPipeline recover isAddr payload m sg now parseTime = .ok w →
      ∃ r, siweGates recover payload m sg now parseTime = .ok r ∧ w = lowerStr r) := by
  constructor
  · unfold siweGates siweGatesSpec
    by_cases h1 : (parseSiweMessage m).nonce = none ∨
        (parseSiweMessage m).nonce ≠ some payload.nonce
    · rw [if_pos h1, if_pos h1]
    · rw [if_neg h1, if_neg h1]
      by_cases h2 : (parseSiweMessage m).domain = none ∨
          (parseSiweMessage m).domain ≠ some payload.domain
      · rw [if_pos h2, if_pos h2]
      · rw [if_neg h2, if_neg h2]
        cases hrec0 : recover m sg with
        | none => rfl
        | some r =>
          show (if (parseSiweMessage m).address = "" ∨
                  lowerStr r ≠ lowerStr (parseSiweMessage m).address then
                Except.error (ApiResp.mk 400 "ADDRESS_MISMATCH")
              else
                match (parseSiweMessage m).expirationTime with
                | none => Except.ok r
                | some t =>
                  match parseTime t with
                  | none => Except.ok r
                  | some v =>
                    if now > v then Except.error (ApiResp.mk 400 "CHALLENGE_EXPIRED")
                    else Except.ok r) =
              (if lowerStr r ≠ lowerStr (parseSiweMessage m).address then
                Except.error (ApiResp.mk 400 "ADDRESS_MISMATCH")
              else
                match (parseSiweMessage m).expirationTime with
                | none => Except.ok r
                | some t =>
                  match parseTime t with
                  | none => Except.ok r
                  | some v =>
                    if v < now then Except.error (ApiResp.mk 400 "CHALLENGE_EXPIRED")
                    else Except.ok r)
          have hrne : r ≠ "" := hrec m sg r hrec0
          by_cases ha : lowerStr r ≠ lowerStr (parseSiweMessage m).address
          · rw [if_pos (Or.inr ha), if_pos ha]
          · have heq : lowerStr r = lowerStr (parseSiweMessage m).address := not_not.mp ha
            have haddr : ¬((parseSiweMessage m).address = "" ∨
                lowerStr r ≠ lowerStr (parseSiweMessage m).address) := by
              rintro (h0 | h0)
              · apply hrne
                rw [h0] at heq
                exact (lowerStr_eq_empty_iff r).mp heq
              · exact h0 heq
            rw [if_neg haddr, if_neg (not_not_intro heq)]
  · intro w hw
    unfold siweLinkPipeline at hw
    split at hw
    · exact Except.noConfusion hw
    · rename_i r hg
      refine ⟨r, hg, ?_⟩
      unfold recoveredToWallet at hw
      split at hw
      · exact Except.noConfusion hw
      · split at hw
        · exact Except.noConfusion hw
        · exact (Except.ok.inj hw).symm

/-- Concrete mixed-case address used by witnesses. -/
def wAddrMix : String := "0xABCDEF0123456789abcdef0123456789ABCDEF01"

/-- Concrete SIWE message used by witnesses. -/
def wSiweMsg : String :=
  "ab.c wants you to sign in with your Ethereum account:\n" ++ wAddrMix ++
    "\n\nURI: http://ab.c\nVersion: 1\nChain ID: 1\nNonce: n1\nIssued At: t0\n"

/-- C1 witness: the gate-order theorem applied to a concrete challenge,
message and recovery function, its hypothesis discharged by evaluation. -/
theorem siwe_gate_order_inst :
    siweGates (fun _ _ => some wAddrMix) wCh wSiweMsg "0xsig" 3 wParseTime =
      siweGatesSpec (fun _ _ => some wAddrMix) wCh wSiweMsg "0xsig" 3 wParseTime :=
  (siwe_gate_order (fun _ _ => some wAddrMix) (fun _ => true) wCh wSiweMsg "0xsig" 3
    wParseTime
    (fun a b r h => by
      injection h with h2
      rw [← h2]
      decide)).1

/-! ## Claim C9 -/

/-- C9: the claim (and the specification) require the challenge cookie to be
cleared on every terminal outcome of `wallet.link`, and the code contains the
`clearChallengeCookie` call sites for it — but they run only after
`handleLink` has already sent the response, where `res.setHeader` raises
`ERR_HTTP_HEADERS_SENT`, so the expiring `Set-Cookie` header is never
emitted.  Evaluated at the failing input (a fully successful session-path
link), the response is a 200 success yet no clearing header is emitted and
the post-response clear attempt raises; in general no terminal outcome of the
link case emits the clearing header, and the raise happens exactly on the
outcomes that reach the store phase. -/
theorem link_cookie_never_cleared :
    (linkCase (fun _ _ => some wAddrMix) (fun _ => true) "u1" (some wAddrMix) (.ok wCh)
        "session" none none "ab.c" 3 wParseTime [⟨"u1", none, none⟩] "t1"
        none).resp.status = 200 ∧
    (linkCase (fun _ _ => some wAddrMix) (fun _ => true) "u1" (some wAddrMix) (.ok wCh)
        "session" none none "ab.c" 3 wParseTime [⟨"u1", none, none⟩] "t1"
        none).cleared = false ∧
    (linkCase (fun _ _ => some wAddrMix) (fun _ => true) "u1" (some wAddrMix) (.ok wCh)
        "session" none none "ab.c" 3 wParseTime [⟨"u1", none, none⟩] "t1"
        none).clearThrew = true ∧
    (∀ (recover : String → String → Option String) (isAddr : String → Bool)
        (userId : String) (tokenWallet : Option String)
        (chall : Except String ChallengePayload) (method : String)
        (signature siweMessage : Option String) (host : String) (now : Int)
        (parseTime : String → Option Int) (db : List Profile) (nowIso : String)
        (writeErr : Option DbErr),
      (linkCase recover isAddr userId tokenWallet chall method signature siweMessage
        host now parseTime db nowIso writeErr).cleared = false) := by
  refine ⟨by decide, by decide, by decide, ?_⟩
  intro recover isAddr userId tokenWallet chall method signature siweMessage host now
    parseTime db nowIso writeErr
  unfold linkCase
  repeat' split
  all_goals rfl

end CryptoLens
